import Mathlib

/-!
Shallow embedding of the Flight-Sight server (src/server.js) for checking the
natural-language specification against the code.

The embedding covers the two pieces of core logic:
* the in-memory airport autocomplete cache (server.js lines 149-152 and
  244-286): a JS Map keyed by the upper-cased keyword, populated on a cache
  miss, with a setTimeout that deletes the key 24 hours after the store;
* the search-flights pipeline (server.js lines 182-242): truthiness-based
  input validation, one Gemini suggestion call, fence stripping and JSON
  parsing of the response, and a per-destination fare loop that drops
  failed lookups.

JavaScript platform primitives are modelled explicitly: the JS Map as an
association list with unique keys, setTimeout as a list of pending (key,
fireAt) deletions, String.prototype.toUpperCase as a character map, and
JSON.parse restricted to the grammar relevant here (strings, arrays, and
flat objects with string fields, without interior whitespace).
-/

/-- Opaque location records returned by the Amadeus reference-data lookup
(response.data in server.js line 267); treated as pass-through payload and
modelled as opaque strings. -/
abbrev LocData := List String

/-- CACHE_TTL_MS from server.js line 152: 24 hours in milliseconds. -/
def CACHE_TTL_MS : Nat := 24 * 60 * 60 * 1000

/-- Model of String.prototype.toUpperCase used at server.js line 252. -/
def jsToUpperCase (s : String) : String :=
  String.mk (s.data.map Char.toUpper)

/-- Model of JS Map.get composed with Map.has: first binding for the key.
The Nat component is ghost instrumentation recording the insertion time of
the entry; it does not influence the behaviour of any operation. -/
def mapGet : List (String × LocData × Nat) → String → Option (LocData × Nat)
  | [], _ => none
  | (k', v, ts) :: rest, k => if k' = k then some (v, ts) else mapGet rest k

/-- Model of JS Map.set: replace the binding for the key if present,
otherwise append a fresh binding. -/
def mapSet : List (String × LocData × Nat) → String → LocData → Nat → List (String × LocData × Nat)
  | [], k, v, ts => [(k, v, ts)]
  | (k', v', ts') :: rest, k, v, ts =>
    if k' = k then (k, v, ts) :: rest else (k', v', ts') :: mapSet rest k v ts

/-- Model of JS Map.delete: remove the binding for the key. Keys of a JS Map
are unique, and states built by mapSet keep at most one binding per key, so
removing every occurrence coincides with removing the single entry. -/
def mapDelete : List (String × LocData × Nat) → String → List (String × LocData × Nat)
  | [], _ => []
  | (k', v', ts') :: rest, k =>
    if k' = k then mapDelete rest k else (k', v', ts') :: mapDelete rest k

/-- State of the caching machinery of server.js: the airportCache Map
(line 151) together with the deletions scheduled by setTimeout at lines
273-276, each recorded as (cacheKey, scheduled fire time). -/
structure CacheState where
  airportCache : List (String × LocData × Nat)
  pending : List (String × Nat)
deriving DecidableEq

/-- The empty cache, the state at server start. -/
def emptyCache : CacheState := ⟨[], []⟩

/-- Cache read path of server.js lines 252-255: fold the keyword with
toUpperCase and look it up in the Map. There is no expiry comparison in the
code; the lookup does not depend on the current time. -/
def cacheLookup (s : CacheState) (keyword : String) : Option LocData :=
  (mapGet s.airportCache (jsToUpperCase keyword)).map (fun e => e.1)

/-- Cache store path of server.js lines 271-276: set the entry under the
upper-cased key and schedule a deletion of that key at now + CACHE_TTL_MS. -/
def cacheStore (s : CacheState) (keyword : String) (responseData : LocData) (now : Nat) : CacheState :=
  let cacheKey := jsToUpperCase keyword
  { airportCache := mapSet s.airportCache cacheKey responseData now,
    pending := s.pending ++ [(cacheKey, now + CACHE_TTL_MS)] }

/-- The setTimeout callback of server.js lines 273-276 firing: it deletes
its captured cacheKey from the Map unconditionally, with no comparison of
the entry present at fire time against the entry that scheduled it. -/
def timerFire (s : CacheState) (i : Nat) : CacheState :=
  match s.pending[i]? with
  | none => s
  | some (cacheKey, _) =>
    { airportCache := mapDelete s.airportCache cacheKey,
      pending := s.pending.eraseIdx i }

/-- An atomic event in an execution of the caching machinery: either the
cache-store block of a request runs, or a scheduled deletion fires. -/
inductive CacheEvent
  | store (keyword : String) (responseData : LocData) (now : Nat)
  | fire (i : Nat)

/-- Run a sequence of cache events from a given state. -/
def execEvents : CacheState → List CacheEvent → CacheState
  | s, [] => s
  | s, (CacheEvent.store k v t) :: rest => execEvents (cacheStore s k v t) rest
  | s, (CacheEvent.fire i) :: rest => execEvents (timerFire s i) rest

/-- Response of the search-airports handler (server.js lines 244-286). -/
inductive AirportResponse
  | badRequest
  | ok (dat : LocData)
  | serverError
deriving DecidableEq

/-- Observable outcome of one search-airports request: the HTTP response,
the number of upstream Amadeus location lookups performed, and the cache
state afterwards. -/
structure AirportCall where
  response : AirportResponse
  upstreamCalls : Nat
  state : CacheState
deriving DecidableEq

/-- The search-airports handler of server.js lines 244-286. The upstream
function models amadeus.referenceData.locations.get: some data on success,
none when the call throws. -/
def searchAirports (s : CacheState) (keyword : String) (now : Nat)
    (upstream : String → Option LocData) : AirportCall :=
  if keyword = "" then ⟨AirportResponse.badRequest, 0, s⟩
  else
    let cacheKey := jsToUpperCase keyword
    match mapGet s.airportCache cacheKey with
    | some (dat, _) => ⟨AirportResponse.ok dat, 0, s⟩
    | none =>
      match upstream cacheKey with
      | some responseData =>
        ⟨AirportResponse.ok responseData, 1, cacheStore s keyword responseData now⟩
      | none => ⟨AirportResponse.serverError, 1, s⟩

/-! ### Shared lemmas about the Map model -/

/-- Reading back the key just set yields the stored value and timestamp. -/
theorem mapGet_set_self (m : List (String × LocData × Nat)) (k : String) (v : LocData) (ts : Nat) :
    mapGet (mapSet m k v ts) k = some (v, ts) := by
  induction m with
  | nil => simp [mapSet, mapGet]
  | cons e rest ih =>
    obtain ⟨k', v', ts'⟩ := e
    by_cases h : k' = k
    · simp [mapSet, h, mapGet]
    · simp [mapSet, h, mapGet, ih]

/-- After deleting a key, reading it yields nothing. -/
theorem mapGet_delete_self (m : List (String × LocData × Nat)) (k : String) :
    mapGet (mapDelete m k) k = none := by
  induction m with
  | nil => simp [mapDelete, mapGet]
  | cons e rest ih =>
    obtain ⟨k', v', ts'⟩ := e
    by_cases h : k' = k
    · simp [mapDelete, h, ih]
    · simp [mapDelete, h, mapGet, ih]

/-! ### C1: expired entries and the read path -/

/-- Formalization of claim C1: for every key, a get invoked at any time tq at
or after the expiry of the stored entry (creation time + 24h TTL) behaves as
a miss, even though no removal timer has fired between the store and the
get. The lookup of the code takes no clock input, so the quantified query
time cannot influence its result. -/
def noStaleReads : Prop :=
  ∀ (k : String) (v : LocData) (t tq : Nat),
    t + CACHE_TTL_MS ≤ tq →
    cacheLookup (cacheStore emptyCache k v t) k = none

/-- C1 fails on the code: an entry stored at time 0 under key PAR is still
returned by a get at its expiry time 86400000 when no timer has fired,
because the read path of server.js lines 252-255 never compares the entry
age against the TTL. -/
theorem C1_counterexample : ¬ noStaleReads := by
  intro h
  have h2 := h "PAR" ["LHR"] 0 CACHE_TTL_MS (by decide)
  exact absurd h2 (by decide)

/-- C1 amended: expiry is enforced only by the scheduled deletion timer.
Until the timer for the entry fires, a get returns the stored value no
matter how much time has passed; once that timer fires, the entry is gone
and a get behaves as a miss. -/
theorem C1_expiry_only_by_timer (k : String) (v : LocData) (t : Nat) :
    cacheLookup (cacheStore emptyCache k v t) k = some v ∧
    cacheLookup (timerFire (cacheStore emptyCache k v t) 0) k = none := by
  constructor
  · simp [cacheLookup, cacheStore, emptyCache, mapGet_set_self]
  · simp [cacheLookup, cacheStore, emptyCache, timerFire, mapSet, mapGet, mapDelete]

/-! ### C2: a firing deletion and the entry it removes -/

/-- Formalization of claim C2: in every execution of the caching machinery
starting from the empty cache, every pending deletion is matched with its
own entry: if a deletion for key k scheduled to fire at time fa is pending
and the Map currently holds an entry for k inserted at time ins, then
ins + CACHE_TTL_MS = fa, i.e. the entry the deletion would remove when it
fires is exactly the entry whose insertion scheduled it. -/
def firesDeleteOwnEntry : Prop :=
  ∀ (evs : List CacheEvent) (i : Nat) (k : String) (fa : Nat) (v : LocData) (ins : Nat),
    (execEvents emptyCache evs).pending[i]? = some (k, fa) →
    mapGet (execEvents emptyCache evs).airportCache k = some (v, ins) →
    ins + CACHE_TTL_MS = fa

/-- C2 fails on the code: after two stores for the same key (as produced by
two requests that both miss and then both store, which the request-parallel
server permits), the deletion scheduled by the first store is still pending
and targets the key, yet the entry now present was inserted by the second
store; firing it would delete that fresher entry, since the callback of
server.js lines 273-276 deletes by key without any identity comparison. -/
theorem C2_counterexample : ¬ firesDeleteOwnEntry := by
  intro h
  have h2 := h [CacheEvent.store "PAR" ["A"] 0, CacheEvent.store "PAR" ["B"] 10]
      0 "PAR" CACHE_TTL_MS ["B"] 10 (by decide) (by decide)
  exact absurd h2 (by decide)

/-- C2 amended: when a scheduled deletion fires, it removes whatever entry
is under its captured key at that moment, with no comparison against the
entry that scheduled it; after any pending deletion for key k fires, the
Map holds no entry for k, even when the current entry is fresher than the
one whose insertion scheduled the deletion. -/
theorem C2_fire_deletes_by_key (s : CacheState) (i : Nat) (k : String) (fa : Nat)
    (hp : s.pending[i]? = some (k, fa)) :
    mapGet (timerFire s i).airportCache k = none := by
  simp [timerFire, hp, mapGet_delete_self]

/-- Witness for the amended C2 at a concrete state: the state after storing
PAR at time 0 and again at time 10 has the first deletion pending, and
firing it leaves no entry for PAR. -/
theorem C2_fire_deletes_by_key_witness :
    (cacheStore (cacheStore emptyCache "PAR" ["A"] 0) "PAR" ["B"] 10).pending[0]?
        = some ("PAR", CACHE_TTL_MS) ∧
    mapGet (timerFire (cacheStore (cacheStore emptyCache "PAR" ["A"] 0) "PAR" ["B"] 10) 0).airportCache
        "PAR" = none := by
  refine ⟨by decide, C2_fire_deletes_by_key _ 0 "PAR" CACHE_TTL_MS (by decide)⟩

/-! ### C3: overwriting a live entry -/

/-- Formalization of claim C3: storing v2 for a key while the entry (k, v1)
is live (t1 ≤ t2 < t1 + TTL) overwrites the entry so that its value is v2
and its expiry is t2 + TTL; expiry reaching the caller means that as long
as only deletions scheduled to fire before t2 + TTL fire, a get still
returns v2. -/
def overwriteRefreshes : Prop :=
  ∀ (k : String) (v1 v2 : LocData) (t1 t2 : Nat),
    t1 ≤ t2 → t2 < t1 + CACHE_TTL_MS →
    cacheLookup (cacheStore (cacheStore emptyCache k v1 t1) k v2 t2) k = some v2 ∧
    (∀ (i : Nat) (k' : String) (fa : Nat),
      (cacheStore (cacheStore emptyCache k v1 t1) k v2 t2).pending[i]? = some (k', fa) →
      fa < t2 + CACHE_TTL_MS →
      cacheLookup (timerFire (cacheStore (cacheStore emptyCache k v1 t1) k v2 t2) i) k = some v2)

/-- C3 fails on the code: after storing PAR at time 0 and overwriting it at
time 10, the deletion scheduled by the first store is pending with fire
time 86400000, before the second write expiry 86400010; when it fires the
entry is removed, so the effective expiry of the overwritten entry is the
first write expiry, not the second. -/
theorem C3_counterexample : ¬ overwriteRefreshes := by
  intro h
  have h2 := (h "PAR" ["A"] ["B"] 0 10 (by decide) (by decide)).2
      0 "PAR" CACHE_TTL_MS (by decide) (by decide)
  exact absurd h2 (by decide)

/-- C3 amended: overwriting a live entry is last-write-wins for the value (a
get returns v2, with no merge) and schedules an additional deletion at
t2 + TTL, but the deletion scheduled by the first write remains pending at
t1 + TTL, and when it fires the overwritten entry is removed early. -/
theorem C3_overwrite_value_keeps_old_timer (k : String) (v1 v2 : LocData) (t1 t2 : Nat) :
    cacheLookup (cacheStore (cacheStore emptyCache k v1 t1) k v2 t2) k = some v2 ∧
    (cacheStore (cacheStore emptyCache k v1 t1) k v2 t2).pending
        = [(jsToUpperCase k, t1 + CACHE_TTL_MS), (jsToUpperCase k, t2 + CACHE_TTL_MS)] ∧
    cacheLookup (timerFire (cacheStore (cacheStore emptyCache k v1 t1) k v2 t2) 0) k = none := by
  refine ⟨?_, ?_, ?_⟩
  · simp [cacheLookup, cacheStore, emptyCache, mapSet, mapGet]
  · simp [cacheStore, emptyCache]
  · simp [cacheLookup, cacheStore, emptyCache, timerFire, mapSet, mapGet, mapDelete]

/-! ### C4: case-insensitive keys -/

/-- C4: cache keys are case-insensitive: a store under k1 followed by a get
under any k2 with the same case folding returns the stored value, because
both paths fold the keyword with toUpperCase before touching the Map. -/
theorem C4_case_insensitive_keys (s : CacheState) (k1 k2 : String) (v : LocData) (t : Nat)
    (h : jsToUpperCase k1 = jsToUpperCase k2) :
    cacheLookup (cacheStore s k1 v t) k2 = some v := by
  simp [cacheLookup, cacheStore, ← h, mapGet_set_self]

/-- Witness for C4: storing under PAR and reading under par returns the
stored value. -/
theorem C4_case_insensitive_keys_witness :
    cacheLookup (cacheStore emptyCache "PAR" ["CDG"] 0) "par" = some ["CDG"] :=
  C4_case_insensitive_keys emptyCache "PAR" "par" ["CDG"] 0 (by decide)

/-! ### Shared lemmas about the search-airports handler -/

/-- On a cache miss with a successful upstream lookup, the handler performs
one upstream call, answers with the fetched data and stores it. -/
theorem searchAirports_miss (s : CacheState) (k : String) (t : Nat)
    (upstream : String → Option LocData) (v : LocData)
    (hk : ¬ k = "")
    (hm : mapGet s.airportCache (jsToUpperCase k) = none)
    (hu : upstream (jsToUpperCase k) = some v) :
    searchAirports s k t upstream = ⟨AirportResponse.ok v, 1, cacheStore s k v t⟩ := by
  simp [searchAirports, hk, hm, hu]

/-- On a cache hit, the handler answers from the Map with zero upstream
calls and leaves the state unchanged. -/
theorem searchAirports_hit (s : CacheState) (k : String) (t : Nat)
    (upstream : String → Option LocData) (v : LocData) (ts : Nat)
    (hk : ¬ k = "")
    (hh : mapGet s.airportCache (jsToUpperCase k) = some (v, ts)) :
    searchAirports s k t upstream = ⟨AirportResponse.ok v, 0, s⟩ := by
  simp [searchAirports, hk, hh]

/-! ### C8: miss-then-hit autocomplete discipline -/

/-- C8: a first autocomplete call whose keyword misses the cache performs
exactly one upstream location lookup and stores the result under the
case-folded key; a subsequent call for any case variant of the keyword
(before a deletion fires) performs zero upstream calls, returns the
identical stored value and leaves the state unchanged, so the same holds
for every further call. -/
theorem C8_first_call_fetches_then_cached (s : CacheState) (k1 k2 : String)
    (v : LocData) (t1 t2 : Nat) (upstream : String → Option LocData)
    (hk1 : ¬ k1 = "") (hk2 : ¬ k2 = "")
    (hfold : jsToUpperCase k1 = jsToUpperCase k2)
    (hmiss : cacheLookup s k1 = none)
    (hup : upstream (jsToUpperCase k1) = some v) :
    (searchAirports s k1 t1 upstream).upstreamCalls = 1 ∧
    (searchAirports s k1 t1 upstream).response = AirportResponse.ok v ∧
    mapGet (searchAirports s k1 t1 upstream).state.airportCache (jsToUpperCase k1)
        = some (v, t1) ∧
    (searchAirports (searchAirports s k1 t1 upstream).state k2 t2 upstream).upstreamCalls = 0 ∧
    (searchAirports (searchAirports s k1 t1 upstream).state k2 t2 upstream).response
        = AirportResponse.ok v ∧
    (searchAirports (searchAirports s k1 t1 upstream).state k2 t2 upstream).state
        = (searchAirports s k1 t1 upstream).state := by
  have hm : mapGet s.airportCache (jsToUpperCase k1) = none := by
    simpa [cacheLookup] using hmiss
  rw [searchAirports_miss s k1 t1 upstream v hk1 hm hup]
  have hstore : mapGet (cacheStore s k1 v t1).airportCache (jsToUpperCase k1) = some (v, t1) := by
    simp [cacheStore, mapGet_set_self]
  have hstore2 : mapGet (cacheStore s k1 v t1).airportCache (jsToUpperCase k2) = some (v, t1) := by
    rw [← hfold]; exact hstore
  rw [searchAirports_hit (cacheStore s k1 v t1) k2 t2 upstream v t1 hk2 hstore2]
  exact ⟨rfl, rfl, hstore, rfl, rfl, rfl⟩

/-- Witness for C8 at concrete inputs: first call for par fetches upstream
once and caches under PAR; the second call for PAR is served from the cache
with zero upstream calls. -/
theorem C8_first_call_fetches_then_cached_witness :
    (searchAirports emptyCache "par" 0
        (fun q => if q = "PAR" then some ["CDG"] else none)).upstreamCalls = 1 ∧
    (searchAirports emptyCache "par" 0
        (fun q => if q = "PAR" then some ["CDG"] else none)).response = AirportResponse.ok ["CDG"] ∧
    mapGet (searchAirports emptyCache "par" 0
        (fun q => if q = "PAR" then some ["CDG"] else none)).state.airportCache
        (jsToUpperCase "par") = some (["CDG"], 0) ∧
    (searchAirports (searchAirports emptyCache "par" 0
        (fun q => if q = "PAR" then some ["CDG"] else none)).state "PAR" 5
        (fun q => if q = "PAR" then some ["CDG"] else none)).upstreamCalls = 0 ∧
    (searchAirports (searchAirports emptyCache "par" 0
        (fun q => if q = "PAR" then some ["CDG"] else none)).state "PAR" 5
        (fun q => if q = "PAR" then some ["CDG"] else none)).response
        = AirportResponse.ok ["CDG"] ∧
    (searchAirports (searchAirports emptyCache "par" 0
        (fun q => if q = "PAR" then some ["CDG"] else none)).state "PAR" 5
        (fun q => if q = "PAR" then some ["CDG"] else none)).state
        = (searchAirports emptyCache "par" 0
        (fun q => if q = "PAR" then some ["CDG"] else none)).state :=
  C8_first_call_fetches_then_cached emptyCache "par" "PAR" ["CDG"] 0 5
    (fun q => if q = "PAR" then some ["CDG"] else none)
    (by decide) (by decide) (by decide) (by decide) (by decide)

/-! ### C10: negative caching of empty upstream results -/

/-- C10: an upstream autocomplete lookup that succeeds with an empty result
list is cached like any other result: the empty sequence is stored under
the folded key, and a subsequent lookup of the key is answered from the
cache with zero upstream calls and the empty sequence, with the state
unchanged, so the same holds for every further lookup before a deletion
fires. -/
theorem C10_empty_result_is_cached (s : CacheState) (k : String) (t1 t2 : Nat)
    (upstream : String → Option LocData)
    (hk : ¬ k = "")
    (hmiss : cacheLookup s k = none)
    (hup : upstream (jsToUpperCase k) = some []) :
    (searchAirports s k t1 upstream).response = AirportResponse.ok [] ∧
    mapGet (searchAirports s k t1 upstream).state.airportCache (jsToUpperCase k)
        = some ([], t1) ∧
    (searchAirports (searchAirports s k t1 upstream).state k t2 upstream).upstreamCalls = 0 ∧
    (searchAirports (searchAirports s k t1 upstream).state k t2 upstream).response
        = AirportResponse.ok [] ∧
    (searchAirports (searchAirports s k t1 upstream).state k t2 upstream).state
        = (searchAirports s k t1 upstream).state := by
  have hm : mapGet s.airportCache (jsToUpperCase k) = none := by
    simpa [cacheLookup] using hmiss
  rw [searchAirports_miss s k t1 upstream [] hk hm hup]
  have hstore : mapGet (cacheStore s k [] t1).airportCache (jsToUpperCase k) = some ([], t1) := by
    simp [cacheStore, mapGet_set_self]
  rw [searchAirports_hit (cacheStore s k [] t1) k t2 upstream [] t1 hk hstore]
  exact ⟨rfl, hstore, rfl, rfl, rfl⟩

/-- Witness for C10 at concrete inputs: an upstream lookup for LIM that
succeeds with the empty list is stored, and the second call is a cache hit
returning the empty list with zero upstream calls. -/
theorem C10_empty_result_is_cached_witness :
    (searchAirports emptyCache "lim" 3
        (fun q => if q = "LIM" then some [] else none)).response = AirportResponse.ok [] ∧
    mapGet (searchAirports emptyCache "lim" 3
        (fun q => if q = "LIM" then some [] else none)).state.airportCache
        (jsToUpperCase "lim") = some ([], 3) ∧
    (searchAirports (searchAirports emptyCache "lim" 3
        (fun q => if q = "LIM" then some [] else none)).state "lim" 9
        (fun q => if q = "LIM" then some [] else none)).upstreamCalls = 0 ∧
    (searchAirports (searchAirports emptyCache "lim" 3
        (fun q => if q = "LIM" then some [] else none)).state "lim" 9
        (fun q => if q = "LIM" then some [] else none)).response = AirportResponse.ok [] ∧
    (searchAirports (searchAirports emptyCache "lim" 3
        (fun q => if q = "LIM" then some [] else none)).state "lim" 9
        (fun q => if q = "LIM" then some [] else none)).state
        = (searchAirports emptyCache "lim" 3
        (fun q => if q = "LIM" then some [] else none)).state :=
  C10_empty_result_is_cached emptyCache "lim" 3 9
    (fun q => if q = "LIM" then some [] else none)
    (by decide) (by decide) (by decide)

/-! ### The search-flights pipeline (server.js lines 182-242) -/

/-- A JavaScript request-body value as relevant to the truthiness check at
server.js line 185. -/
inductive BodyVal
  | undefined
  | null
  | boolean (b : Bool)
  | num (n : Int)
  | str (s : String)
deriving DecidableEq

/-- JS falsiness of a request-body value: undefined, null, false, 0 and the
empty string are falsy; everything else is truthy. -/
def falsy : BodyVal → Bool
  | BodyVal.undefined => true
  | BodyVal.null => true
  | BodyVal.boolean b => !b
  | BodyVal.num n => n == 0
  | BodyVal.str s => s == ""

/-- A destination candidate as expected from Gemini: a city display name
and an airport code (spec section 3, DestinationCandidate). -/
structure Destination where
  city : String
  iataCode : String
deriving DecidableEq

/-- A flight offer as consumed from the Amadeus response at server.js line
226: only the price total, a decimal string on the wire, is used. -/
structure Offer where
  total : String
deriving DecidableEq

/-- Outcome of one amadeus.shopping.flightOffersSearch.get call (server.js
lines 215-221): the data array on success, or failure when the call
throws. -/
inductive FareResponse
  | success (dat : List Offer)
  | failure
deriving DecidableEq

/-- An element of a parsed JSON array in the fragment of JSON modelled
here: a string, a flat object with string-valued fields, or the null
literal. Numbers and booleans are left out of the fragment because a JS
property access on them yields undefined without throwing, exactly as on a
string, so they add no behaviour the jstr case does not already cover;
null is the one JSON element on which a property access throws. -/
inductive JElem
  | jstr (s : String)
  | jobj (fields : List (String × String))
  | jnull
deriving DecidableEq

/-- A parsed JSON value in the fragment of JSON modelled here: a string, a
flat object with string-valued fields, an array of elements, or the null
literal. -/
inductive JVal
  | jstr (s : String)
  | jobj (fields : List (String × String))
  | jarr (elems : List JElem)
  | jnull
deriving DecidableEq

/-- First binding for a field name in a parsed object. -/
def lookupField : List (String × String) → String → Option String
  | [], _ => none
  | (k, v) :: rest, f => if k = f then some v else lookupField rest f

/-- Model of the JS property access destination.city / destination.iataCode
at server.js lines 217, 225 and 230: accessing a property of null throws a
TypeError (outer none); on a string the access yields undefined (some
none); on an object it yields the field value when present and undefined
otherwise. -/
def jsAccess : JElem → String → Option (Option String)
  | JElem.jnull, _ => none
  | JElem.jstr _, _ => some none
  | JElem.jobj fields, f => some (lookupField fields f)

/-- The value a property access yields when it does not throw: the field
value of an object, undefined (none) on a string or a missing field, and
none on null, where the access in the code would in fact throw. -/
def jsGetStr (e : JElem) (f : String) : Option String :=
  match jsAccess e f with
  | some v => v
  | none => none

/-- Model of the JS for-of iteration at server.js line 213: arrays iterate
their elements, strings iterate their characters (each yielding a
one-character string), and plain objects and null are not iterable, which
throws and is caught by the outer handler. -/
def forOfElems : JVal → Option (List JElem)
  | JVal.jarr es => some es
  | JVal.jstr s => some (s.data.map (fun c => JElem.jstr (String.mk [c])))
  | JVal.jobj _ => none
  | JVal.jnull => none

/-- A result pushed into flightResults at server.js lines 224-227. The
destination is the city property of the element, which is undefined (none)
when absent; the price is parseFloat applied to the total of the first
offer, with parseFloat passed in as an abstract numeric conversion. -/
structure FlightResult where
  destination : Option String
  price : Rat
deriving DecidableEq

/-- Outcome of the fare loop: either it runs to completion with the
collected results, or an exception escapes it and aborts the remaining
iterations. Both carry the ordered list of fare-call destination codes made
before the outcome, as instrumentation of upstream traffic. -/
inductive LoopResult
  | done (flights : List FlightResult) (calls : List (Option String))
  | thrown (calls : List (Option String))
deriving DecidableEq

/-- The per-destination fare loop of server.js lines 213-233: for each
element, the iataCode property access, then one FareSource call with its
value; a successful call with a nonempty data array pushes a FlightResult,
an empty data array or a thrown call contributes nothing and the loop
continues. On a null element the property access itself throws before any
call; the inner catch then evaluates the template literal of its
console.error, which performs the same access and throws again, so the
exception escapes the catch, aborts the loop and reaches the outer 500
handler. -/
def fareLoop (pf : String → Rat) (fare : Option String → FareResponse) :
    List JElem → LoopResult
  | [] => LoopResult.done [] []
  | e :: rest =>
    match jsAccess e "iataCode" with
    | none => LoopResult.thrown []
    | some code =>
      match fare code with
      | FareResponse.success (o :: _) =>
        match fareLoop pf fare rest with
        | LoopResult.done fs cs =>
          LoopResult.done (⟨jsGetStr e "city", pf o.total⟩ :: fs) (code :: cs)
        | LoopResult.thrown cs => LoopResult.thrown (code :: cs)
      | FareResponse.success [] =>
        match fareLoop pf fare rest with
        | LoopResult.done fs cs => LoopResult.done fs (code :: cs)
        | LoopResult.thrown cs => LoopResult.thrown (code :: cs)
      | FareResponse.failure =>
        match fareLoop pf fare rest with
        | LoopResult.done fs cs => LoopResult.done fs (code :: cs)
        | LoopResult.thrown cs => LoopResult.thrown (code :: cs)

/-- Outcome of the Gemini suggestion call at server.js lines 197-199: the
raw response text, or failure when the call throws. -/
inductive SuggestOutcome
  | success (text : String)
  | failure

/-- Response of the search-flights handler. -/
inductive FlightsResponse
  | badRequest
  | serverError
  | ok (flights : List FlightResult)
deriving DecidableEq

/-- Observable outcome of one search-flights request: the HTTP response,
whether the Gemini suggestion call was reached, and the ordered list of
fare-call destination codes. -/
structure FlightsCall where
  response : FlightsResponse
  suggestCalled : Bool
  fareCalls : List (Option String)
deriving DecidableEq

/-! ### Fence stripping, trimming and JSON parsing (server.js line 200) -/

/-- Model of geminiText.replace applied with the global pattern that
matches either a backtick-backtick-backtick-json marker or a bare triple
backtick (server.js line 200): scan left to right, deleting each match,
preferring the longer marker at each position. -/
def stripFencesAux : List Char → List Char
  | '\x60' :: '\x60' :: '\x60' :: 'j' :: 's' :: 'o' :: 'n' :: rest => stripFencesAux rest
  | '\x60' :: '\x60' :: '\x60' :: rest => stripFencesAux rest
  | c :: cs => c :: stripFencesAux cs
  | [] => []

/-- Whitespace as removed by String.prototype.trim, restricted to the
characters that can occur here. -/
def isWsChar (c : Char) : Bool :=
  c == ' ' || c == '\n' || c == '\t' || c == '\r'

/-- Model of String.prototype.trim at server.js line 200: drop leading and
trailing whitespace. -/
def trimChars (cs : List Char) : List Char :=
  ((cs.dropWhile isWsChar).reverse.dropWhile isWsChar).reverse

/-- Unescape a character following a backslash in a JSON string literal. -/
def unescChar (c : Char) : Char :=
  if c = 'n' then '\n' else if c = 't' then '\t' else if c = 'r' then '\r' else c

/-- Parse the body of a JSON string literal after its opening quote, up to
and including the closing quote; returns the decoded characters and the
rest of the input. -/
def parseStringBody : List Char → Option (List Char × List Char)
  | [] => none
  | c :: rest =>
    if c = '"' then some ([], rest)
    else if c = '\\' then
      match rest with
      | [] => none
      | e :: rest2 => (parseStringBody rest2).map (fun p => (unescChar e :: p.1, p.2))
    else (parseStringBody rest).map (fun p => (c :: p.1, p.2))

/-- Parse a JSON string literal including its opening quote. -/
def parseQuoted : List Char → Option (String × List Char)
  | '"' :: rest => (parseStringBody rest).map (fun p => (String.mk p.1, p.2))
  | _ => none

/-- Parse the nonempty field list of a JSON object, after the opening brace
up to and including the closing brace. The fuel bounds the number of
fields; the callers pass at least the input length. -/
def parseFieldsAux : Nat → List Char → Option (List (String × String) × List Char)
  | 0, _ => none
  | fuel + 1, cs =>
    match parseQuoted cs with
    | none => none
    | some (k, r1) =>
      match r1 with
      | ':' :: r2 =>
        match parseQuoted r2 with
        | none => none
        | some (v, r3) =>
          match r3 with
          | ',' :: r4 =>
            match parseFieldsAux fuel r4 with
            | none => none
            | some (fs, r5) => some ((k, v) :: fs, r5)
          | '\x7d' :: r4 => some ([(k, v)], r4)
          | _ => none
      | _ => none

/-- Parse the body of a JSON object after its opening brace: either an
immediately closed empty object or a field list. -/
def parseObjBody (fuel : Nat) (cs : List Char) : Option (List (String × String) × List Char) :=
  match cs with
  | '\x7d' :: rest => some ([], rest)
  | _ => parseFieldsAux fuel cs

/-- Parse one array element: a string literal, a flat object, or the null
literal. -/
def parseElem (fuel : Nat) (cs : List Char) : Option (JElem × List Char) :=
  match cs with
  | '"' :: _ => (parseQuoted cs).map (fun p => (JElem.jstr p.1, p.2))
  | '\x7b' :: rest => (parseObjBody fuel rest).map (fun p => (JElem.jobj p.1, p.2))
  | 'n' :: 'u' :: 'l' :: 'l' :: rest => some (JElem.jnull, rest)
  | _ => none

/-- Parse the nonempty element list of a JSON array, after the opening
bracket up to and including the closing bracket. -/
def parseElemsAux : Nat → List Char → Option (List JElem × List Char)
  | 0, _ => none
  | fuel + 1, cs =>
    match parseElem fuel cs with
    | none => none
    | some (e, r1) =>
      match r1 with
      | ',' :: r2 =>
        match parseElemsAux fuel r2 with
        | none => none
        | some (es, r3) => some (e :: es, r3)
      | ']' :: r2 => some ([e], r2)
      | _ => none

/-- Parse a top-level JSON value in the modelled fragment. -/
def parseTop (fuel : Nat) (cs : List Char) : Option (JVal × List Char) :=
  match cs with
  | '"' :: _ => (parseQuoted cs).map (fun p => (JVal.jstr p.1, p.2))
  | '\x7b' :: rest => (parseObjBody fuel rest).map (fun p => (JVal.jobj p.1, p.2))
  | '[' :: ']' :: rest => some (JVal.jarr [], rest)
  | '[' :: rest => (parseElemsAux fuel rest).map (fun p => (JVal.jarr p.1, p.2))
  | 'n' :: 'u' :: 'l' :: 'l' :: rest => some (JVal.jnull, rest)
  | _ => none

/-- Model of JSON.parse at server.js line 200, restricted to the grammar
relevant here (strings, null, arrays of strings, flat objects or null,
flat objects with string fields, no interior whitespace; numbers and
booleans are omitted as behaviourally identical to strings for this
handler): the whole input must be consumed, otherwise parsing throws
(none). -/
def jsonParseModel (cs : List Char) : Option JVal :=
  match parseTop (cs.length + 1) cs with
  | some (v, []) => some v
  | _ => none

/-- The cleaning applied to the Gemini response text at server.js line 200:
strip fence markers globally, then trim. -/
def cleanGemini (s : String) : List Char :=
  trimChars (stripFencesAux s.data)

/-- The full destination-extraction step of server.js line 200: clean the
raw Gemini text and parse it as JSON. -/
def parseGemini (s : String) : Option JVal :=
  jsonParseModel (cleanGemini s)

/-- The search-flights handler of server.js lines 182-242: truthiness
validation of the two body fields, one Gemini suggestion call, cleaning and
parsing of its text, for-of iteration over the parsed value, and the fare
loop. Any throw after validation (suggestion failure, JSON.parse failure,
non-iterable parse result, an exception escaping the fare loop) is caught
at line 238 and answered with the 500 response. -/
def searchFlights (numberOfDays departureAirport : BodyVal) (suggest : SuggestOutcome)
    (pf : String → Rat) (fare : Option String → FareResponse) : FlightsCall :=
  if falsy numberOfDays || falsy departureAirport then
    ⟨FlightsResponse.badRequest, false, []⟩
  else
    match suggest with
    | SuggestOutcome.failure => ⟨FlightsResponse.serverError, true, []⟩
    | SuggestOutcome.success geminiText =>
      match parseGemini geminiText with
      | none => ⟨FlightsResponse.serverError, true, []⟩
      | some destinations =>
        match forOfElems destinations with
        | none => ⟨FlightsResponse.serverError, true, []⟩
        | some elems =>
          match fareLoop pf fare elems with
          | LoopResult.done fs cs => ⟨FlightsResponse.ok fs, true, cs⟩
          | LoopResult.thrown cs => ⟨FlightsResponse.serverError, true, cs⟩

/-- The JSON element corresponding to a well-formed destination candidate. -/
def destToJElem (d : Destination) : JElem :=
  JElem.jobj [("city", d.city), ("iataCode", d.iataCode)]

/-- The city property of a well-formed candidate element. -/
theorem jsGetStr_dest_city (d : Destination) : jsGetStr (destToJElem d) "city" = some d.city := by
  simp [jsGetStr, jsAccess, destToJElem, lookupField]

/-- The iataCode property of a well-formed candidate element. -/
theorem jsGetStr_dest_iata (d : Destination) :
    jsGetStr (destToJElem d) "iataCode" = some d.iataCode := by
  simp [jsGetStr, jsAccess, destToJElem, lookupField]

/-- Accessing city on a well-formed candidate element does not throw. -/
theorem jsAccess_dest_city (d : Destination) :
    jsAccess (destToJElem d) "city" = some (some d.city) := by
  simp [jsAccess, destToJElem, lookupField]

/-- Accessing iataCode on a well-formed candidate element does not throw. -/
theorem jsAccess_dest_iata (d : Destination) :
    jsAccess (destToJElem d) "iataCode" = some (some d.iataCode) := by
  simp [jsAccess, destToJElem, lookupField]

/-- On any element other than null the property access does not throw and
yields the jsGetStr value. -/
theorem jsAccess_of_ne_null (e : JElem) (f : String) (h : e ≠ JElem.jnull) :
    jsAccess e f = some (jsGetStr e f) := by
  cases e with
  | jstr s => rfl
  | jobj fields => rfl
  | jnull => exact absurd rfl h

/-- When no element is null and every fare call fails, the loop completes,
collects nothing, and the calls are one per element, in order. -/
theorem fareLoop_all_fail (pf : String → Rat) (fare : Option String → FareResponse)
    (elems : List JElem) (hnn : JElem.jnull ∉ elems)
    (h : ∀ e ∈ elems, fare (jsGetStr e "iataCode") = FareResponse.failure) :
    fareLoop pf fare elems = LoopResult.done [] (elems.map (fun e => jsGetStr e "iataCode")) := by
  induction elems with
  | nil => simp [fareLoop]
  | cons e rest ih =>
    have he := h e (by simp)
    have hne : e ≠ JElem.jnull := fun hc => hnn (by simp [hc])
    have hr := ih (fun hc => hnn (by simp [hc])) (fun e' he' => h e' (by simp [he']))
    simp [fareLoop, jsAccess_of_ne_null e _ hne, he, hr]

/-- When no element is null, the loop completes and makes one fare call per
element, in order, whatever the fare outcomes are. -/
theorem fareLoop_no_null_completes (pf : String → Rat) (fare : Option String → FareResponse)
    (elems : List JElem) (hnn : JElem.jnull ∉ elems) :
    ∃ fs, fareLoop pf fare elems
      = LoopResult.done fs (elems.map (fun e => jsGetStr e "iataCode")) := by
  induction elems with
  | nil => exact ⟨[], rfl⟩
  | cons e rest ih =>
    have hne : e ≠ JElem.jnull := fun hc => hnn (by simp [hc])
    obtain ⟨fs, hfs⟩ := ih (fun hc => hnn (by simp [hc]))
    cases hf : fare (jsGetStr e "iataCode") with
    | failure => exact ⟨fs, by simp [fareLoop, jsAccess_of_ne_null e _ hne, hf, hfs]⟩
    | success dat =>
      cases dat with
      | nil => exact ⟨fs, by simp [fareLoop, jsAccess_of_ne_null e _ hne, hf, hfs]⟩
      | cons o os =>
        exact ⟨⟨jsGetStr e "city", pf o.total⟩ :: fs,
          by simp [fareLoop, jsAccess_of_ne_null e _ hne, hf, hfs]⟩

/-- When the first null element is reached, the property access throws, the
rethrow from the logging template literal escapes the loop, and only the
earlier elements got fare calls. -/
theorem fareLoop_null_aborts (pf : String → Rat) (fare : Option String → FareResponse)
    (pre suf : List JElem) (hnn : JElem.jnull ∉ pre) :
    fareLoop pf fare (pre ++ JElem.jnull :: suf)
      = LoopResult.thrown (pre.map (fun e => jsGetStr e "iataCode")) := by
  induction pre with
  | nil => simp [fareLoop, jsAccess]
  | cons e rest ih =>
    have hne : e ≠ JElem.jnull := fun hc => hnn (by simp [hc])
    have hr := ih (fun hc => hnn (by simp [hc]))
    cases hf : fare (jsGetStr e "iataCode") with
    | failure => simp [fareLoop, jsAccess_of_ne_null e _ hne, hf, hr]
    | success dat =>
      cases dat with
      | nil => simp [fareLoop, jsAccess_of_ne_null e _ hne, hf, hr]
      | cons o os => simp [fareLoop, jsAccess_of_ne_null e _ hne, hf, hr]

/-! ### C9: truthiness-based input validation -/

/-- C9: the input validation of the search-flights handler is
truthiness-based: a request whose numberOfDays is 0 or the empty string is
rejected with the 400 response before the suggestion call and before any
fare call, while any truthy numberOfDays, a non-numeric string included,
together with a truthy departureAirport reaches the suggestion call. -/
theorem C9_truthiness_validation (days dep : BodyVal) (sg : SuggestOutcome)
    (pf : String → Rat) (fare : Option String → FareResponse) :
    ((days = BodyVal.num 0 ∨ days = BodyVal.str "") →
      searchFlights days dep sg pf fare = ⟨FlightsResponse.badRequest, false, []⟩) ∧
    (falsy days = false → falsy dep = false →
      (searchFlights days dep sg pf fare).suggestCalled = true) := by
  constructor
  · rintro (rfl | rfl) <;> simp [searchFlights, falsy]
  · intro hd he
    simp only [searchFlights, hd, he, Bool.or_self, if_false]
    cases sg with
    | failure => rfl
    | success t =>
      cases hpg : parseGemini t with
      | none => simp [hpg]
      | some v =>
        cases hfo : forOfElems v with
        | none => simp [hpg, hfo]
        | some es =>
          cases hfl : fareLoop pf fare es with
          | done fs cs => simp [hpg, hfo, hfl]
          | thrown cs => simp [hpg, hfo, hfl]

/-- Witness for C9 at concrete inputs: numberOfDays 0 is rejected with the
400 response and no suggestion call, while the non-numeric string five as
numberOfDays passes validation and reaches the suggestion call. -/
theorem C9_truthiness_validation_witness :
    searchFlights (BodyVal.num 0) (BodyVal.str "JFK") SuggestOutcome.failure
        (fun _ => 0) (fun _ => FareResponse.failure)
      = ⟨FlightsResponse.badRequest, false, []⟩ ∧
    (searchFlights (BodyVal.str "five") (BodyVal.str "JFK")
        (SuggestOutcome.success "oops") (fun _ => 0)
        (fun _ => FareResponse.failure)).suggestCalled = true :=
  ⟨(C9_truthiness_validation (BodyVal.num 0) (BodyVal.str "JFK") SuggestOutcome.failure
      (fun _ => 0) (fun _ => FareResponse.failure)).1 (Or.inl rfl),
   (C9_truthiness_validation (BodyVal.str "five") (BodyVal.str "JFK")
      (SuggestOutcome.success "oops") (fun _ => 0)
      (fun _ => FareResponse.failure)).2 (by decide) (by decide)⟩

/-! ### C5: per-candidate failures are dropped, order preserved -/

/-- C5: with three candidates whose fare lookups succeed with at least one
offer for the first and the third and fail or return no offers for the
second, the handler answers with exactly the two results of the first and
third candidate in candidate order and no error; and when no element is
null and every fare lookup fails, it answers with the empty list as a
non-error outcome. -/
theorem C5_soft_failures_excluded :
    (∀ (days dep : BodyVal) (text : String) (d1 d2 d3 : Destination)
        (pf : String → Rat) (fare : Option String → FareResponse)
        (o1 o3 : Offer) (os1 os3 : List Offer),
      falsy days = false → falsy dep = false →
      parseGemini text = some (JVal.jarr [destToJElem d1, destToJElem d2, destToJElem d3]) →
      fare (some d1.iataCode) = FareResponse.success (o1 :: os1) →
      (fare (some d2.iataCode) = FareResponse.failure ∨
        fare (some d2.iataCode) = FareResponse.success []) →
      fare (some d3.iataCode) = FareResponse.success (o3 :: os3) →
      searchFlights days dep (SuggestOutcome.success text) pf fare =
        ⟨FlightsResponse.ok [⟨some d1.city, pf o1.total⟩, ⟨some d3.city, pf o3.total⟩], true,
         [some d1.iataCode, some d2.iataCode, some d3.iataCode]⟩) ∧
    (∀ (days dep : BodyVal) (text : String) (elems : List JElem)
        (pf : String → Rat) (fare : Option String → FareResponse),
      falsy days = false → falsy dep = false →
      parseGemini text = some (JVal.jarr elems) →
      JElem.jnull ∉ elems →
      (∀ e ∈ elems, fare (jsGetStr e "iataCode") = FareResponse.failure) →
      searchFlights days dep (SuggestOutcome.success text) pf fare =
        ⟨FlightsResponse.ok [], true, elems.map (fun e => jsGetStr e "iataCode")⟩) := by
  constructor
  · intro days dep text d1 d2 d3 pf fare o1 o3 os1 os3 hd he hp h1 h2 h3
    rcases h2 with h2 | h2 <;>
      simp [searchFlights, hd, he, hp, forOfElems, fareLoop, jsAccess_dest_iata,
        jsGetStr_dest_iata, jsGetStr_dest_city, h1, h2, h3]
  · intro days dep text elems pf fare hd he hp hnn hall
    simp [searchFlights, hd, he, hp, forOfElems, fareLoop_all_fail pf fare elems hnn hall]

set_option maxRecDepth 100000 in
/-- Witness for C5 at the end-to-end scenario of the spec: candidates
Paris/CDG, Tokyo/HND, Lima/LIM, with an offer for CDG, no offers for HND
and an offer for LIM, yield exactly the Paris and Lima results in that
order; and the same candidates with every fare call failing yield the empty
list. -/
theorem C5_soft_failures_excluded_witness :
    searchFlights (BodyVal.num 5) (BodyVal.str "JFK")
      (SuggestOutcome.success
        "[\x7b\"city\":\"Paris, France\",\"iataCode\":\"CDG\"\x7d,\x7b\"city\":\"Tokyo, Japan\",\"iataCode\":\"HND\"\x7d,\x7b\"city\":\"Lima, Peru\",\"iataCode\":\"LIM\"\x7d]")
      (fun _ => 0)
      (fun c => if c = some "CDG" then FareResponse.success [⟨"450.00"⟩]
        else if c = some "LIM" then FareResponse.success [⟨"980.50"⟩]
        else FareResponse.success [])
      = ⟨FlightsResponse.ok [⟨some "Paris, France", 0⟩, ⟨some "Lima, Peru", 0⟩], true,
         [some "CDG", some "HND", some "LIM"]⟩ ∧
    searchFlights (BodyVal.num 5) (BodyVal.str "JFK")
      (SuggestOutcome.success
        "[\x7b\"city\":\"Paris, France\",\"iataCode\":\"CDG\"\x7d,\x7b\"city\":\"Tokyo, Japan\",\"iataCode\":\"HND\"\x7d,\x7b\"city\":\"Lima, Peru\",\"iataCode\":\"LIM\"\x7d]")
      (fun _ => 0) (fun _ => FareResponse.failure)
      = ⟨FlightsResponse.ok [], true, [some "CDG", some "HND", some "LIM"]⟩ :=
  ⟨C5_soft_failures_excluded.1 (BodyVal.num 5) (BodyVal.str "JFK") _
      ⟨"Paris, France", "CDG"⟩ ⟨"Tokyo, Japan", "HND"⟩ ⟨"Lima, Peru", "LIM"⟩
      (fun _ => 0) _ ⟨"450.00"⟩ ⟨"980.50"⟩ [] []
      (by decide) (by decide) (by decide) (by decide) (Or.inr (by decide)) (by decide),
   C5_soft_failures_excluded.2 (BodyVal.num 5) (BodyVal.str "JFK") _
      [destToJElem ⟨"Paris, France", "CDG"⟩, destToJElem ⟨"Tokyo, Japan", "HND"⟩,
        destToJElem ⟨"Lima, Peru", "LIM"⟩]
      (fun _ => 0) (fun _ => FareResponse.failure)
      (by decide) (by decide) (by decide) (by decide) (fun e _ => rfl)⟩

/-! ### C6: malformed suggestion payloads -/

/-- A parsed element in the candidate shape required by the spec: an object
carrying both a city and an iataCode string field. -/
def destOfElem (e : JElem) : Option Destination :=
  match jsGetStr e "city", jsGetStr e "iataCode" with
  | some c, some i => some ⟨c, i⟩
  | _, _ => none

/-- Whether a raw suggestion payload is, after cleaning, valid structured
data in the candidate shape: a JSON array each of whose elements carries
city and iataCode; none when not. -/
def candidatesOfText (s : String) : Option (List Destination) :=
  match parseGemini s with
  | some (JVal.jarr es) => es.mapM destOfElem
  | _ => none

/-- Formalization of claim C6: for every raw suggestion payload whose
cleaned text is not valid structured data in the candidate shape, a payload
parsing as JSON with an element missing city or iataCode included, the
handler fails with the single fatal 500 error and performs zero fare
calls. -/
def malformedFatalNoFares : Prop :=
  ∀ (text : String) (days dep : BodyVal) (pf : String → Rat)
    (fare : Option String → FareResponse),
    falsy days = false → falsy dep = false →
    candidatesOfText text = none →
    searchFlights days dep (SuggestOutcome.success text) pf fare
      = ⟨FlightsResponse.serverError, true, []⟩

/-- C6 fails on the code: the payload consisting of one object carrying
only city parses as JSON, so JSON.parse at server.js line 200 does not
throw; the shape is never validated, the loop runs and one fare call is
made with an undefined destination code, answering 200 with an empty
list rather than failing with the 500 error and zero fare calls. -/
theorem C6_counterexample : ¬ malformedFatalNoFares := by
  intro h
  have h2 := h "[\x7b\"city\":\"Paris\"\x7d]" (BodyVal.num 5) (BodyVal.str "JFK")
      (fun _ => 0) (fun _ => FareResponse.failure) (by decide) (by decide) (by decide)
  exact absurd h2 (by decide)

/-- C6 amended: the candidate shape is never validated, and malformed
payloads split by how JavaScript treats them, not by the shape check the
claim assumes. A cleaned payload that fails to parse as JSON is fatal with
the 500 error and zero fare calls, and so is a payload that parses but
cannot be iterated. A JSON array without null elements always completes
the loop with one fare call per element, in order, so an element that is
an object lacking city or iataCode (or a string) is not fatal and still
receives a fare lookup with an undefined destination code. A JSON array
whose first null element follows a null-free segment is fatal with the 500
error, but through the thrown property access escaping the logging of the
inner catch, after the fare calls of the earlier elements, zero when the
null element comes first. -/
theorem C6_no_shape_validation :
    (∀ (text : String) (days dep : BodyVal) (pf : String → Rat)
        (fare : Option String → FareResponse),
      falsy days = false → falsy dep = false →
      parseGemini text = none →
      searchFlights days dep (SuggestOutcome.success text) pf fare
        = ⟨FlightsResponse.serverError, true, []⟩) ∧
    (∀ (text : String) (days dep : BodyVal) (pf : String → Rat)
        (fare : Option String → FareResponse) (v : JVal),
      falsy days = false → falsy dep = false →
      parseGemini text = some v →
      forOfElems v = none →
      searchFlights days dep (SuggestOutcome.success text) pf fare
        = ⟨FlightsResponse.serverError, true, []⟩) ∧
    (∀ (text : String) (days dep : BodyVal) (pf : String → Rat)
        (fare : Option String → FareResponse) (elems : List JElem),
      falsy days = false → falsy dep = false →
      parseGemini text = some (JVal.jarr elems) →
      JElem.jnull ∉ elems →
      ∃ fs, searchFlights days dep (SuggestOutcome.success text) pf fare
        = ⟨FlightsResponse.ok fs, true, elems.map (fun e => jsGetStr e "iataCode")⟩) ∧
    (∀ (text : String) (days dep : BodyVal) (pf : String → Rat)
        (fare : Option String → FareResponse) (pre suf : List JElem),
      falsy days = false → falsy dep = false →
      parseGemini text = some (JVal.jarr (pre ++ JElem.jnull :: suf)) →
      JElem.jnull ∉ pre →
      searchFlights days dep (SuggestOutcome.success text) pf fare
        = ⟨FlightsResponse.serverError, true, pre.map (fun e => jsGetStr e "iataCode")⟩) := by
  refine ⟨?_, ?_, ?_, ?_⟩
  · intro text days dep pf fare hd he hp
    simp [searchFlights, hd, he, hp]
  · intro text days dep pf fare v hd he hp hit
    simp [searchFlights, hd, he, hp, hit]
  · intro text days dep pf fare elems hd he hp hnn
    obtain ⟨fs, hfs⟩ := fareLoop_no_null_completes pf fare elems hnn
    exact ⟨fs, by simp [searchFlights, hd, he, hp, forOfElems, hfs]⟩
  · intro text days dep pf fare pre suf hd he hp hnn
    simp [searchFlights, hd, he, hp, forOfElems, fareLoop_null_aborts pf fare pre suf hnn]

/-- Witness for the amended C6 at concrete payloads: text that is not JSON
at all gives the 500 error with zero fare calls; a bare null payload parses
but is not iterable and gives the 500 error with zero fare calls; an array
with one object lacking iataCode completes with one fare call carrying an
undefined code; and the array holding a single null element gives the 500
error with zero fare calls through the thrown property access. -/
theorem C6_no_shape_validation_witness :
    searchFlights (BodyVal.num 5) (BodyVal.str "JFK")
        (SuggestOutcome.success "no json here")
        (fun _ => 0) (fun _ => FareResponse.failure)
      = ⟨FlightsResponse.serverError, true, []⟩ ∧
    searchFlights (BodyVal.num 5) (BodyVal.str "JFK")
        (SuggestOutcome.success "null")
        (fun _ => 0) (fun _ => FareResponse.failure)
      = ⟨FlightsResponse.serverError, true, []⟩ ∧
    (∃ fs, searchFlights (BodyVal.num 5) (BodyVal.str "JFK")
        (SuggestOutcome.success "[\x7b\"city\":\"Paris\"\x7d]")
        (fun _ => 0) (fun _ => FareResponse.failure)
      = ⟨FlightsResponse.ok fs, true, [none]⟩) ∧
    searchFlights (BodyVal.num 5) (BodyVal.str "JFK")
        (SuggestOutcome.success "[null]")
        (fun _ => 0) (fun _ => FareResponse.failure)
      = ⟨FlightsResponse.serverError, true, []⟩ :=
  ⟨C6_no_shape_validation.1 "no json here" (BodyVal.num 5) (BodyVal.str "JFK")
      (fun _ => 0) (fun _ => FareResponse.failure) (by decide) (by decide) (by decide),
   C6_no_shape_validation.2.1 "null" (BodyVal.num 5) (BodyVal.str "JFK")
      (fun _ => 0) (fun _ => FareResponse.failure) JVal.jnull
      (by decide) (by decide) (by decide) (by decide),
   C6_no_shape_validation.2.2.1 "[\x7b\"city\":\"Paris\"\x7d]" (BodyVal.num 5)
      (BodyVal.str "JFK") (fun _ => 0) (fun _ => FareResponse.failure)
      [JElem.jobj [("city", "Paris")]]
      (by decide) (by decide) (by decide) (by decide),
   C6_no_shape_validation.2.2.2 "[null]" (BodyVal.num 5) (BodyVal.str "JFK")
      (fun _ => 0) (fun _ => FareResponse.failure) [] []
      (by decide) (by decide) (by decide) (by decide)⟩

/-! ### C7: fence stripping versus payload contents -/

/-- JSON string escaping as performed by a serializer producing the
payloads the pipeline consumes. -/
def escChar (c : Char) : List Char :=
  if c = '"' then ['\\', '"']
  else if c = '\\' then ['\\', '\\']
  else if c = '\n' then ['\\', 'n']
  else if c = '\t' then ['\\', 't']
  else if c = '\r' then ['\\', 'r']
  else [c]

/-- Escape every character of a string body. -/
def escString : List Char → List Char
  | [] => []
  | c :: cs => escChar c ++ escString cs

/-- Serialize a string as a JSON string literal. -/
def serStr (s : String) : List Char :=
  '"' :: (escString s.data ++ ['"'])

/-- Serialize one destination candidate as a JSON object with city and
iataCode fields, as in the format the prompt at server.js line 195
requests. -/
def serDest (d : Destination) : List Char :=
  '\x7b' :: (serStr "city" ++ (':' :: (serStr d.city ++ (',' ::
    (serStr "iataCode" ++ (':' :: (serStr d.iataCode ++ ['\x7d'])))))))

/-- Serialize the comma-separated element list of a candidate array. -/
def serElems : List Destination → List Char
  | [] => []
  | [d] => serDest d
  | d :: d2 :: rest => serDest d ++ (',' :: serElems (d2 :: rest))

/-- Serialize a candidate list as a JSON array. -/
def serDests (l : List Destination) : List Char :=
  '[' :: (serElems l ++ [']'])

/-- Whether a character sequence contains a triple-backtick run, the
sequence the global replace of server.js line 200 also deletes from inside
the payload. -/
def hasFence : List Char → Bool
  | [] => false
  | c :: cs => (c == '\x60' && cs.take 2 == ['\x60', '\x60']) || hasFence cs

/-- Wrap a payload in the code-fence markers the Gemini response may carry:
a json-tagged opening fence, the payload on its own line, a closing
fence. -/
def fenceWrap (s : String) : String :=
  "\x60\x60\x60json\n" ++ s ++ "\n\x60\x60\x60"

/-- Formalization of claim C7: for every candidate list, cleaning the
fence-wrapped serialization of the list and parsing it yields exactly the
list, including candidate lists whose string contents contain backtick
sequences. -/
def fenceStripFaithful : Prop :=
  ∀ (l : List Destination),
    parseGemini (fenceWrap (String.mk (serDests l)))
      = some (JVal.jarr (l.map destToJElem))

/-- C7 fails on the code: the replace at server.js line 200 is global, so
for the single candidate whose city is the five characters a, three
backticks, b, the triple backtick inside the JSON string literal is also
deleted, and the pipeline parses the payload as the city ab instead. -/
theorem C7_counterexample : ¬ fenceStripFaithful := by
  intro h
  have h2 := h [⟨"a\x60\x60\x60b", "CDG"⟩]
  exact absurd h2 (by decide)

/-- Rebuilding a string from its characters is the identity. -/
theorem stringMk_data (s : String) : String.mk s.data = s := by
  cases s; rfl

/-- Round trip of the string-body parser over the escaper. -/
theorem parseStringBody_esc (cs rest : List Char) :
    parseStringBody (escString cs ++ ('"' :: rest)) = some (cs, rest) := by
  induction cs with
  | nil =>
    rw [show escString [] ++ ('"' :: rest) = '"' :: rest from rfl, parseStringBody.eq_def]
    simp
  | cons c cs' ih =>
    by_cases h1 : c = '"'
    · subst h1
      rw [show escString ('"' :: cs') ++ ('"' :: rest)
            = '\\' :: '"' :: (escString cs' ++ ('"' :: rest)) by simp [escString, escChar],
        parseStringBody.eq_def]
      simp [ih, unescChar]
    · by_cases h2 : c = '\\'
      · subst h2
        rw [show escString ('\\' :: cs') ++ ('"' :: rest)
              = '\\' :: '\\' :: (escString cs' ++ ('"' :: rest)) by simp [escString, escChar],
          parseStringBody.eq_def]
        simp [ih, unescChar]
      · by_cases h3 : c = '\n'
        · subst h3
          rw [show escString ('\n' :: cs') ++ ('"' :: rest)
                = '\\' :: 'n' :: (escString cs' ++ ('"' :: rest)) by simp [escString, escChar],
            parseStringBody.eq_def]
          simp [ih, unescChar]
        · by_cases h4 : c = '\t'
          · subst h4
            rw [show escString ('\t' :: cs') ++ ('"' :: rest)
                  = '\\' :: 't' :: (escString cs' ++ ('"' :: rest)) by simp [escString, escChar],
              parseStringBody.eq_def]
            simp [ih, unescChar]
          · by_cases h5 : c = '\r'
            · subst h5
              rw [show escString ('\r' :: cs') ++ ('"' :: rest)
                    = '\\' :: 'r' :: (escString cs' ++ ('"' :: rest)) by simp [escString, escChar],
                parseStringBody.eq_def]
              simp [ih, unescChar]
            · rw [show escString (c :: cs') ++ ('"' :: rest)
                    = c :: (escString cs' ++ ('"' :: rest)) by
                  simp [escString, escChar, h1, h2, h3, h4, h5],
                parseStringBody.eq_def]
              simp [h1, h2, ih]

/-- Round trip of the string-literal parser over the serializer. -/
theorem parseQuoted_ser (s : String) (rest : List Char) :
    parseQuoted (serStr s ++ rest) = some (s, rest) := by
  simp [serStr, parseQuoted, List.append_assoc, List.cons_append,
    parseStringBody_esc, stringMk_data]

/-- An object body starting with a string literal is parsed as a field list. -/
theorem parseObjBody_serStr (f : Nat) (s : String) (cs : List Char) :
    parseObjBody f (serStr s ++ cs) = parseFieldsAux f (serStr s ++ cs) := rfl

/-- Round trip of the field-list parser over a serialized two-field candidate body. -/
theorem parseFieldsAux_city_iata (cv iv : String) (rest : List Char) (f : Nat) :
    parseFieldsAux (f + 2)
        (serStr "city" ++ (':' :: (serStr cv ++ (',' ::
          (serStr "iataCode" ++ (':' :: (serStr iv ++ ('\x7d' :: rest))))))))
      = some ([("city", cv), ("iataCode", iv)], rest) := by
  have hf : f + 2 = (f + 1) + 1 := rfl
  rw [hf, parseFieldsAux.eq_def]
  simp only [parseQuoted_ser]
  rw [parseFieldsAux.eq_def]
  simp only [parseQuoted_ser]

/-- Round trip of the element parser over a serialized candidate. -/
theorem parseElem_serDest (d : Destination) (rest : List Char) (f : Nat) :
    parseElem (f + 2) (serDest d ++ rest) = some (destToJElem d, rest) := by
  have hshape : serDest d ++ rest
      = '\x7b' :: (serStr "city" ++ (':' :: (serStr d.city ++ (',' ::
          (serStr "iataCode" ++ (':' :: (serStr d.iataCode ++ ('\x7d' :: rest)))))))) := by
    simp [serDest, List.append_assoc]
  have hred : parseElem (f + 2) ('\x7b' :: (serStr "city" ++ (':' :: (serStr d.city ++ (',' ::
          (serStr "iataCode" ++ (':' :: (serStr d.iataCode ++ ('\x7d' :: rest)))))))))
      = (parseObjBody (f + 2) (serStr "city" ++ (':' :: (serStr d.city ++ (',' ::
          (serStr "iataCode" ++ (':' :: (serStr d.iataCode ++ ('\x7d' :: rest))))))))).map
          (fun p => (JElem.jobj p.1, p.2)) := rfl
  rw [hshape, hred, parseObjBody_serStr, parseFieldsAux_city_iata]
  rfl

/-- A serialized candidate is nonempty. -/
theorem serDest_len (d : Destination) : 1 ≤ (serDest d).length := by
  simp [serDest]

/-- A serialized element list is at least as long as the candidate list. -/
theorem serElems_len : ∀ (d : Destination) (t : List Destination),
    (d :: t).length ≤ (serElems (d :: t)).length := by
  intro d t
  induction t generalizing d with
  | nil => simpa using serDest_len d
  | cons d2 t2 ih =>
    have h1 := serDest_len d
    have h2 := ih d2
    simp only [serElems, List.length_cons, List.length_append] at *
    omega

/-- Round trip of the element-list parser over a serialized nonempty candidate list, for any fuel margin. -/
theorem parseElemsAux_ser : ∀ (l : List Destination), l ≠ [] →
    ∀ (rest : List Char) (f : Nat),
    parseElemsAux (l.length + f + 2) (serElems l ++ (']' :: rest))
      = some (l.map destToJElem, rest) := by
  intro l
  induction l with
  | nil => intro h; exact absurd rfl h
  | cons d t ih =>
    intro _ rest f
    cases t with
    | nil =>
      have hf : ([d] : List Destination).length + f + 2 = (f + 2) + 1 := by
        simp only [List.length_cons, List.length_nil]; omega
      rw [hf, parseElemsAux.eq_def]
      simp only [serElems, parseElem_serDest]
      rfl
    | cons d2 t2 =>
      have hf : (d :: d2 :: t2).length + f + 2 = (((d2 :: t2).length + f) + 2) + 1 := by
        simp only [List.length_cons]; omega
      have hshape : serElems (d :: d2 :: t2) ++ (']' :: rest)
          = serDest d ++ (',' :: (serElems (d2 :: t2) ++ (']' :: rest))) := by
        simp [serElems, List.append_assoc]
      rw [hf, hshape, parseElemsAux.eq_def]
      simp only [parseElem_serDest]
      have htail : (d2 :: t2).length + f + 2 = ((d2 :: t2).length + f) + 2 := rfl
      rw [← htail, ih (by simp) rest f]
      rfl

/-- A bracket followed by an object brace parses as a JSON array. -/
theorem parseTop_arr (fuel : Nat) (cs : List Char) (h : cs.head? = some '\x7b') :
    parseTop fuel ('[' :: cs) = (parseElemsAux fuel cs).map (fun p => (JVal.jarr p.1, p.2)) := by
  cases cs with
  | nil => simp at h
  | cons c cs' =>
    simp only [List.head?_cons, Option.some.injEq] at h
    subst h
    rfl

/-- Round trip of the JSON parser over the candidate-list serializer. -/
theorem jsonParse_serDests (l : List Destination) :
    jsonParseModel (serDests l) = some (JVal.jarr (l.map destToJElem)) := by
  cases l with
  | nil => rfl
  | cons d t =>
    have hhead : (serElems (d :: t) ++ [']']).head? = some '\x7b' := by
      cases t with
      | nil => rfl
      | cons d2 t2 => rfl
    have hlen : (d :: t).length ≤ (serElems (d :: t)).length := serElems_len d t
    have hser : serDests (d :: t) = '[' :: (serElems (d :: t) ++ [']']) := rfl
    rw [jsonParseModel, hser]
    have hfuel : ('[' :: (serElems (d :: t) ++ [']'])).length + 1
        = (d :: t).length
          + (((serElems (d :: t)).length + 1) - (d :: t).length) + 2 := by
      have h2 := hlen
      simp only [List.length_cons, List.length_append, List.length_nil] at h2 ⊢
      omega
    rw [hfuel, parseTop_arr _ _ hhead]
    have hrest : serElems (d :: t) ++ [']'] = serElems (d :: t) ++ (']' :: []) := rfl
    rw [hrest, parseElemsAux_ser (d :: t) (by simp) []
        (((serElems (d :: t)).length + 1) - (d :: t).length)]
    rfl

/-- Fence stripping over a fence-free payload followed by a newline and a closing fence keeps the payload and the newline. -/
theorem stripNoFence : ∀ (X : List Char), hasFence X = false →
    stripFencesAux (X ++ ('\n' :: '\x60' :: '\x60' :: '\x60' :: [])) = X ++ ['\n'] := by
  intro X
  induction X with
  | nil => intro _; rfl
  | cons c X' ih =>
    intro h
    simp only [hasFence, Bool.or_eq_false_iff, Bool.and_eq_false_iff] at h
    obtain ⟨hhead, htail⟩ := h
    rw [List.cons_append, stripFencesAux.eq_def]
    split
    · rename_i rest1 heq
      rcases X' with _ | ⟨a, _ | ⟨b, t⟩⟩ <;> simp_all
    · rename_i rest2 _ heq
      rcases X' with _ | ⟨a, _ | ⟨b, t⟩⟩ <;> simp_all
    · rename_i c1 cs1 _ _ heq
      obtain ⟨h1, h2⟩ := List.cons.inj heq
      subst h1
      rw [← h2, ih htail, List.cons_append]
    · rename_i heq
      simp at heq

/-- Trimming the stripped wrapper around a serialized candidate list recovers the serialization. -/
theorem trimSer (l : List Destination) :
    trimChars ('\n' :: (serDests l ++ ['\n'])) = serDests l := by
  have hser : serDests l = '[' :: (serElems l ++ [']']) := rfl
  rw [trimChars, hser]
  have h1 : List.dropWhile isWsChar ('\n' :: ('[' :: (serElems l ++ [']']) ++ ['\n']))
      = '[' :: ((serElems l ++ [']']) ++ ['\n']) := rfl
  rw [h1]
  have h2 : (('[' : Char) :: ((serElems l ++ [']']) ++ ['\n'])).reverse
      = '\n' :: ']' :: ((serElems l).reverse ++ ['[']) := by simp
  rw [h2]
  have h3 : List.dropWhile isWsChar ('\n' :: ']' :: ((serElems l).reverse ++ ['[']))
      = ']' :: ((serElems l).reverse ++ ['[']) := rfl
  rw [h3]
  have h4 : ((']' : Char) :: ((serElems l).reverse ++ ['['])).reverse
      = '[' :: (serElems l ++ [']']) := by simp
  rw [h4]

/-- String concatenation concatenates the character lists. -/
theorem stringData_append (a b : String) : (a ++ b).data = a.data ++ b.data := by
  cases a; cases b; rfl

/-- C7 amended: for every candidate list whose serialization contains no
triple-backtick run, cleaning the fence-wrapped serialization and parsing
it yields exactly the list; when a string value does contain a triple
backtick, the global replace also deletes it from inside the payload and
the parsed result differs, as the counterexample shows. -/
theorem C7_strip_parse_roundtrip (l : List Destination)
    (h : hasFence (serDests l) = false) :
    parseGemini (fenceWrap (String.mk (serDests l)))
      = some (JVal.jarr (l.map destToJElem)) := by
  have hdata : (fenceWrap (String.mk (serDests l))).data
      = '\x60' :: '\x60' :: '\x60' :: 'j' :: 's' :: 'o' :: 'n' :: '\n' ::
        (serDests l ++ ('\n' :: '\x60' :: '\x60' :: '\x60' :: [])) := by
    rw [fenceWrap, stringData_append, stringData_append]
    rfl
  rw [parseGemini, cleanGemini, hdata]
  have hstrip1 : stripFencesAux ('\x60' :: '\x60' :: '\x60' :: 'j' :: 's' :: 'o' :: 'n' :: '\n' ::
        (serDests l ++ ('\n' :: '\x60' :: '\x60' :: '\x60' :: [])))
      = '\n' :: stripFencesAux (serDests l ++ ('\n' :: '\x60' :: '\x60' :: '\x60' :: [])) := rfl
  rw [hstrip1, stripNoFence (serDests l) h, trimSer, jsonParse_serDests]

/-- Witness for the amended C7 at a concrete candidate list without
backticks: cleaning and parsing its wrapped serialization yields exactly
that list. -/
theorem C7_strip_parse_roundtrip_witness :
    hasFence (serDests [⟨"Paris, France", "CDG"⟩]) = false ∧
    parseGemini (fenceWrap (String.mk (serDests [⟨"Paris, France", "CDG"⟩])))
      = some (JVal.jarr [destToJElem ⟨"Paris, France", "CDG"⟩]) :=
  ⟨by decide, C7_strip_parse_roundtrip [⟨"Paris, France", "CDG"⟩] (by decide)⟩
